import Mathlib

/-!
Verification development for the platformer engine repository.

The embedding models three source files:
  the engine frame loop and WebGL context-loss lifecycle (Engine class),
  the platform collision volume (Platform class),
  and the customer interaction / order validation logic (Customer class).

Timestamps and scalar quantities carried by the engine are modelled as
rationals (the source works with JavaScript numbers; the claims under
verification are about exact arithmetic relationships, for which the
rational idealisation is faithful).  The Euclidean distance used by the
customer interaction check needs a square root and is modelled over the
reals.  Side effects on the game object (update, dispose, resize hooks),
on the input system, and on the renderer draw call are modelled as an
event trace emitted by each operation.
-/

/-- Three-component vector, mirroring THREE.Vector3 as used by the sources. -/
structure Vec3 (α : Type) where
  x : α
  y : α
  z : α
deriving DecidableEq

/-- Axis-aligned bounds, mirroring the Bounds interface of Platform.ts
(a pair of corner vectors min and max). -/
structure Bounds where
  min : Vec3 ℚ
  max : Vec3 ℚ
deriving DecidableEq

/-- Collision-relevant state of Platform.ts.  The mesh, colour and
visibility handling of the source are render-only and carry no data the
bounds queries read, so the embedding keeps just the bounds field. -/
structure Platform where
  bounds : Bounds
deriving DecidableEq

/-- Embedding of the Platform constructor, lines 27 to 43 of Platform.ts:
bounds.min is position minus size over two and bounds.max is position plus
size over two, componentwise. -/
def Platform.new (position size : Vec3 ℚ) : Platform :=
  { bounds :=
      { min := ⟨position.x - size.x / 2, position.y - size.y / 2, position.z - size.z / 2⟩
        max := ⟨position.x + size.x / 2, position.y + size.y / 2, position.z + size.z / 2⟩ } }

/-- Embedding of Platform.getBounds, lines 65 to 67 of Platform.ts. -/
def Platform.getBounds (p : Platform) : Bounds :=
  p.bounds

/-- Componentwise containment of a point in an axis-aligned bounds pair.
This is the plain geometric reading of a point lying within the interval
from min to max on all three axes. -/
def Bounds.containsPoint (b : Bounds) (p : Vec3 ℚ) : Prop :=
  b.min.x ≤ p.x ∧ p.x ≤ b.max.x ∧
  b.min.y ≤ p.y ∧ p.y ≤ b.max.y ∧
  b.min.z ≤ p.z ∧ p.z ≤ b.max.z

instance (b : Bounds) (p : Vec3 ℚ) : Decidable (b.containsPoint p) := by
  unfold Bounds.containsPoint
  infer_instance

/-- Ingredient kinds.  The enum lives in Ingredient.ts, which only declares
the six members used throughout Customer.ts (the colour table of
getIngredientColor enumerates all of them). -/
inductive IngredientType where
  | lettuce
  | bacon
  | cheese
  | tomato
  | pickle
  | onion
deriving DecidableEq

/-- Embedding of the CustomerOrder interface of Customer.ts. -/
structure CustomerOrder where
  ingredients : List IngredientType
deriving DecidableEq

/-- State of a Customer (Customer.ts): its fixed position, its order, the
fulfilled flag, and the interaction radius.  Mesh construction and the
order display are render-only and are not modelled. -/
structure Customer where
  position : Vec3 ℝ
  order : CustomerOrder
  orderFulfilled : Bool
  interactionRadius : ℝ

/-- Embedding of the Customer constructor, lines 25 to 61 of Customer.ts:
position is cloned, the order stored, orderFulfilled starts false and the
interaction radius field is initialised to 2.5 (line 21). -/
noncomputable def Customer.new (position : Vec3 ℝ) (order : CustomerOrder) : Customer :=
  { position := position
    order := order
    orderFulfilled := false
    interactionRadius := 5 / 2 }

/-- Euclidean distance between two vectors, mirroring
THREE.Vector3.distanceTo (square root of the sum of squared componentwise
differences). -/
noncomputable def Vec3.distanceTo (a b : Vec3 ℝ) : ℝ :=
  Real.sqrt ((a.x - b.x) ^ 2 + (a.y - b.y) ^ 2 + (a.z - b.z) ^ 2)

/-- Embedding of Customer.checkInteraction, lines 103 to 108 of
Customer.ts: false when the order is already fulfilled, otherwise the
straight-line distance to the player compared strictly against the
interaction radius.  The real-number comparison makes this a proposition
rather than a boolean. -/
def Customer.checkInteraction (c : Customer) (playerPosition : Vec3 ℝ) : Prop :=
  c.orderFulfilled = false ∧ c.position.distanceTo playerPosition < c.interactionRadius

/-- Pointwise comparison loop of Customer.validateOrder, lines 119 to 123
of Customer.ts: the source iterates the index range of the order and
returns false at the first mismatch.  The loop only runs after the length
equality check, under which this structural recursion visits exactly the
same pairs. -/
def ingredientsMatchLoop : List IngredientType → List IngredientType → Bool
  | p :: ps, o :: os => p == o && ingredientsMatchLoop ps os
  | _, _ => true

/-- Embedding of Customer.validateOrder, lines 110 to 126 of Customer.ts:
false when the order is already fulfilled, false when the lengths differ,
otherwise the pointwise comparison over the order positions. -/
def Customer.validateOrder (c : Customer) (playerIngredients : List IngredientType) : Bool :=
  if c.orderFulfilled then false
  else if playerIngredients.length ≠ c.order.ingredients.length then false
  else ingredientsMatchLoop playerIngredients c.order.ingredients

/-- Embedding of Customer.fulfillOrder, lines 128 to 140 of Customer.ts
(the colour change is render-only). -/
def Customer.fulfillOrder (c : Customer) : Customer :=
  { c with orderFulfilled := true }

/-- Embedding of Customer.isOrderFulfilled, lines 146 to 148 of Customer.ts. -/
def Customer.isOrderFulfilled (c : Customer) : Bool :=
  c.orderFulfilled

/-- Embedding of Customer.getOrder, lines 142 to 144 of Customer.ts
(returns a copy of the ingredient list). -/
def Customer.getOrder (c : Customer) : CustomerOrder :=
  { ingredients := c.order.ingredients }

/-- Ambient browser window state read by the engine: innerWidth,
innerHeight and devicePixelRatio. -/
structure WindowEnv where
  innerWidth : ℚ
  innerHeight : ℚ
  devicePixelRatio : ℚ
deriving DecidableEq

/-- Embedding of the EngineConfig fields the Engine class reads (the
canvas handle carries no data the modelled logic inspects). -/
structure EngineConfig where
  maxPixelRatio : Option ℚ
  antialias : Option Bool
  enableShadows : Option Bool
deriving DecidableEq

/-- Shadow-map filtering kinds used by the source: THREE.BasicShadowMap,
THREE.PCFSoftShadowMap, and the three.js default THREE.PCFShadowMap that a
renderer keeps when the engine never assigns a type. -/
inductive ShadowMapType where
  | basic
  | pcfSoft
  | pcf
deriving DecidableEq

/-- Renderer state the engine configures: drawing-buffer size, pixel
ratio, antialiasing, and the shadow-map settings. -/
structure RendererState where
  width : ℚ
  height : ℚ
  pixelRatio : ℚ
  antialias : Bool
  shadowMapEnabled : Bool
  shadowMapType : ShadowMapType
deriving DecidableEq

/-- Scene state the engine touches: the background colour (as a colour
number) and whether fog is installed. -/
structure SceneState where
  background : Option ℕ
  fog : Bool
deriving DecidableEq

/-- Camera state the engine configures. -/
structure CameraState where
  fov : ℚ
  aspect : ℚ
  near : ℚ
  far : ℚ
deriving DecidableEq

/-- Sky colour constant 0x87ceeb used for the scene background. -/
def skyColor : ℕ := 0x87ceeb

/-- JavaScript truthiness of an optional numeric configuration field:
absent and zero are falsy, any other value is truthy.  The source tests
config.maxPixelRatio with the conditional operator in the pixel-ratio and
shadow-type selections, which is exactly this test. -/
def truthyNum : Option ℚ → Bool
  | none => false
  | some v => v != 0

/-- Pixel-ratio selection of Engine lines 72 to 74 (and identically lines
117 to 119): when maxPixelRatio is truthy, the device pixel ratio clamped
to the cap, otherwise the device pixel ratio unchanged. -/
def computePixelRatio (config : EngineConfig) (win : WindowEnv) : ℚ :=
  match config.maxPixelRatio with
  | some cap => if cap ≠ 0 then min win.devicePixelRatio cap else win.devicePixelRatio
  | none => win.devicePixelRatio

/-- Shadow-map configuration of Engine lines 77 to 81 (and identically
lines 121 to 124): when enableShadows (defaulting to true) holds, shadow
maps are enabled with BasicShadowMap under a truthy maxPixelRatio and
PCFSoftShadowMap otherwise; when shadows are disabled the renderer fields
are left untouched. -/
def applyShadowConfig (config : EngineConfig) (r : RendererState) : RendererState :=
  if config.enableShadows.getD true then
    { r with
        shadowMapEnabled := true
        shadowMapType :=
          match config.maxPixelRatio with
          | some cap => if cap ≠ 0 then ShadowMapType.basic else ShadowMapType.pcfSoft
          | none => ShadowMapType.pcfSoft }
  else r

/-- Full engine state.  Games are identified by a natural number; their
update, resize and dispose hooks appear in the event trace. -/
structure EngineState where
  config : EngineConfig
  scene : SceneState
  camera : CameraState
  renderer : RendererState
  game : Option ℕ
  lastTime : ℚ
  animationId : Option ℕ
  isContextLost : Bool
  targetFPS : ℚ
  frameInterval : ℚ
  lastFrameTime : ℚ
deriving DecidableEq

/-- Renderer state right after construction but before the shadow
configuration, lines 64 to 75: sized to the window, with the computed
pixel ratio, the antialias flag defaulting to true, and the three.js
default shadow-map fields. -/
def baseRenderer (config : EngineConfig) (win : WindowEnv) : RendererState :=
  { width := win.innerWidth
    height := win.innerHeight
    pixelRatio := computePixelRatio config win
    antialias := config.antialias.getD true
    shadowMapEnabled := false
    shadowMapType := ShadowMapType.pcf }

/-- Embedding of the Engine constructor, lines 36 to 97: the mobile tier
is selected by maxPixelRatio being present (tested with a strict
undefined comparison on line 41), the target rate and frame interval are
set from the tier, fog is installed only off the mobile tier, the camera
gets fov 75 with the window aspect ratio, and the renderer is sized to
the window with the computed pixel ratio and shadow configuration. -/
def Engine.new (config : EngineConfig) (win : WindowEnv) : EngineState :=
  let isMobile := config.maxPixelRatio.isSome
  { config := config
    scene := { background := some skyColor, fog := !isMobile }
    camera :=
      { fov := 75
        aspect := win.innerWidth / win.innerHeight
        near := 1 / 10
        far := 1000 }
    renderer := applyShadowConfig config (baseRenderer config win)
    game := none
    lastTime := 0
    animationId := none
    isContextLost := false
    targetFPS := if isMobile then 30 else 60
    frameInterval := if isMobile then 1000 / 30 else 1000 / 60
    lastFrameTime := 0 }

/-- Observable side effects of one engine operation: a game update with
its delta-time argument, the per-tick input reset, a successful draw, a
draw call that threw, a game disposal, and a game resize notification. -/
inductive Event where
  | update (g : ℕ) (delta : ℚ)
  | inputReset
  | render
  | renderFailed
  | disposeGame (g : ℕ)
  | resizeHook (g : ℕ) (width height : ℚ)
deriving DecidableEq

/-- Environment of one animation-frame callback: whether
renderer.getContext() yields a context and whether that context reports
itself lost at the pre-render check, whether the draw call throws, the
context answers observed inside the catch handler, and the id returned by
requestAnimationFrame. -/
structure TickEnv where
  glPresent : Bool
  glLost : Bool
  renderThrows : Bool
  glLostInCatch : Bool
  recheckGlPresent : Bool
  recheckGlLost : Bool
  nextAnimationId : ℕ
deriving DecidableEq

/-- Truncation toward zero on rationals, the rounding that the JavaScript
remainder operator applies to the quotient. -/
def ratTrunc (q : ℚ) : ℤ :=
  if 0 ≤ q then ⌊q⌋ else ⌈q⌉

/-- JavaScript numeric remainder: a - b * trunc(a / b). -/
def jsMod (a b : ℚ) : ℚ :=
  a - b * (ratTrunc (a / b) : ℚ)

/-- Embedding of Engine.animate, lines 148 to 204: reschedule, return if
the lost flag is set, re-check the live context and return (setting the
flag) if it is gone or lost, apply frame pacing with the phase-preserving
remainder, compute the delta (zero while lastTime holds the sentinel),
dispatch the game update, reset the input deltas, restore a missing scene
background, and attempt the draw inside a try/catch that on failure marks
the context lost exactly when the context reports dead (directly or on a
fresh getContext re-check) and otherwise only logs. -/
def Engine.animate (s : EngineState) (env : TickEnv) (time : ℚ) : EngineState × List Event :=
  let s := { s with animationId := some env.nextAnimationId }
  if s.isContextLost then (s, [])
  else if !env.glPresent || env.glLost then ({ s with isContextLost := true }, [])
  else
    let elapsed := time - s.lastFrameTime
    if elapsed < s.frameInterval then (s, [])
    else
      let s := { s with lastFrameTime := time - jsMod elapsed s.frameInterval }
      let deltaTime : ℚ := if s.lastTime ≠ 0 then (time - s.lastTime) / 1000 else 0
      let s := { s with lastTime := time }
      let updateEvents :=
        match s.game with
        | some g => [Event.update g deltaTime]
        | none => []
      let s :=
        if s.scene.background = none then
          { s with scene := { s.scene with background := some skyColor } }
        else s
      let preRender := updateEvents ++ [Event.inputReset]
      if !env.renderThrows then (s, preRender ++ [Event.render])
      else if env.glLostInCatch then
        ({ s with isContextLost := true }, preRender ++ [Event.renderFailed])
      else if !env.recheckGlPresent || env.recheckGlLost then
        ({ s with isContextLost := true }, preRender ++ [Event.renderFailed])
      else (s, preRender ++ [Event.renderFailed])

/-- Embedding of Engine.stop, lines 226 to 238: cancel a pending
animation frame if any, then dispose and drop the active game if any. -/
def Engine.stop (s : EngineState) : EngineState × List Event :=
  let s := { s with animationId := none }
  match s.game with
  | some g => ({ s with game := none }, [Event.disposeGame g])
  | none => (s, [])

/-- Embedding of Engine.run, lines 210 to 221: stop the previous game if
one is active, install the new game, clear both clock timestamps to the
zero sentinel, and invoke animate with timestamp zero. -/
def Engine.run (s : EngineState) (g : ℕ) (env : TickEnv) : EngineState × List Event :=
  let stopped := if s.game.isSome then Engine.stop s else (s, [])
  let s1 := { stopped.1 with game := some g, lastTime := 0, lastFrameTime := 0 }
  let ticked := Engine.animate s1 env 0
  (ticked.1, stopped.2 ++ ticked.2)

/-- Embedding of the webglcontextlost listener, lines 106 to 110: set the
sticky lost flag. -/
def Engine.onContextLost (s : EngineState) : EngineState :=
  { s with isContextLost := true }

/-- Embedding of the webglcontextrestored listener, lines 112 to 125:
clear the lost flag, then reapply the renderer size from the window, the
pixel ratio and the shadow configuration with the same computations the
constructor used. -/
def Engine.onContextRestored (s : EngineState) (win : WindowEnv) : EngineState :=
  { s with
      isContextLost := false
      renderer :=
        applyShadowConfig s.config
          { s.renderer with
              width := win.innerWidth
              height := win.innerHeight
              pixelRatio := computePixelRatio s.config win } }

/-- Embedding of Engine.handleResize, lines 132 to 143: update the camera
aspect, resize the renderer, and notify the active game. -/
def Engine.handleResize (s : EngineState) (win : WindowEnv) : EngineState × List Event :=
  let s :=
    { s with
        camera := { s.camera with aspect := win.innerWidth / win.innerHeight }
        renderer := { s.renderer with width := win.innerWidth, height := win.innerHeight } }
  match s.game with
  | some g => (s, [Event.resizeHook g win.innerWidth win.innerHeight])
  | none => (s, [])

/-- One externally triggered engine operation: an animation-frame
callback, the two context lifecycle signals, starting a game, stopping,
and a window resize. -/
inductive Op where
  | tick (time : ℚ) (env : TickEnv)
  | contextLost
  | contextRestored (win : WindowEnv)
  | run (g : ℕ) (env : TickEnv)
  | stop
  | resize (win : WindowEnv)

/-- Dispatch one operation against the engine state, yielding the next
state and the emitted events. -/
def Engine.step (s : EngineState) : Op → EngineState × List Event
  | Op.tick t env => Engine.animate s env t
  | Op.contextLost => (Engine.onContextLost s, [])
  | Op.contextRestored win => (Engine.onContextRestored s win, [])
  | Op.run g env => Engine.run s g env
  | Op.stop => Engine.stop s
  | Op.resize win => Engine.handleResize s win

/-- Run a sequence of operations, concatenating the event traces. -/
def Engine.runTrace (s : EngineState) : List Op → EngineState × List Event
  | [] => (s, [])
  | op :: ops =>
    let first := Engine.step s op
    let rest := Engine.runTrace first.1 ops
    (rest.1, first.2 ++ rest.2)

/-- Delta-time value the advance branch hands to the game, line 171: the
wall-clock difference in seconds, or zero while lastTime holds the zero
sentinel. -/
def advanceDelta (s : EngineState) (t : ℚ) : ℚ :=
  if s.lastTime ≠ 0 then (t - s.lastTime) / 1000 else 0

/-- Result of the advance branch of the tick: clocks advanced, the
background restored when missing, the lost flag raised only when a throw
is confirmed as context death, and the update, input-reset and draw
events in program order. -/
def advanceResult (s : EngineState) (env : TickEnv) (t : ℚ) : EngineState × List Event :=
  (⟨s.config,
    ⟨some (s.scene.background.getD skyColor), s.scene.fog⟩,
    s.camera, s.renderer, s.game, t, some env.nextAnimationId,
    env.renderThrows &&
      (env.glLostInCatch || (!env.recheckGlPresent || env.recheckGlLost)),
    s.targetFPS, s.frameInterval,
    t - jsMod (t - s.lastFrameTime) s.frameInterval⟩,
   (match s.game with
    | some g => [Event.update g (advanceDelta s t)]
    | none => []) ++ [Event.inputReset] ++
   [if env.renderThrows then Event.renderFailed else Event.render])

/-- Fixed sample configuration used by witnesses: a desktop-tier config
(no pixel-ratio cap) and an 800 by 600 window. -/
def cfg0 : EngineConfig := ⟨none, none, none⟩

/-- Fixed sample window used by witnesses. -/
def win0 : WindowEnv := ⟨800, 600, 1⟩

/-- Fixed healthy tick environment used by witnesses: context present and
alive, draw call succeeds. -/
def env0 : TickEnv := ⟨true, false, false, false, true, false, 5⟩

/-- Fixed sample engine state used by witnesses. -/
def s0 : EngineState := Engine.new cfg0 win0

/-- Sample running state used by witnesses: the fresh engine with a game
installed. -/
def s1 : EngineState := { Engine.new cfg0 win0 with game := some 1 }

/-- Tick environment whose draw call throws while the context stays
alive, used by witnesses. -/
def envThrow : TickEnv := ⟨true, false, true, false, true, false, 7⟩

/-- Clock invariant maintained by every engine operation: the frame
interval is positive, and either both clocks still hold the zero sentinel
or the last advancing tick left lastFrameTime within one interval below
lastTime (with lastTime positive). -/
def ClockInv (s : EngineState) : Prop :=
  0 < s.frameInterval ∧
  ((s.lastTime = 0 ∧ s.lastFrameTime = 0) ∨
   (0 < s.lastTime ∧ s.lastTime - s.frameInterval < s.lastFrameTime))

/-- Predicate selecting animation-frame callback operations. -/
def isTickOp : Op → Prop
  | Op.tick _ _ => True
  | _ => False

/-- Predicate selecting the operations that neither start nor stop a
session: ticks, the two context signals, and resizes. -/
def NonSessionOp : Op → Prop
  | Op.run _ _ => False
  | Op.stop => False
  | _ => True

theorem jsMod_eq_fract (a b : ℚ) (ha : 0 ≤ a) (hb : 0 < b) :
    jsMod a b = b * Int.fract (a / b) := by
  unfold jsMod ratTrunc
  rw [if_pos (div_nonneg ha hb.le), Int.fract]
  have hbne : b ≠ 0 := ne_of_gt hb
  field_simp

theorem jsMod_nonneg (a b : ℚ) (ha : 0 ≤ a) (hb : 0 < b) : 0 ≤ jsMod a b := by
  rw [jsMod_eq_fract a b ha hb]
  exact mul_nonneg hb.le (Int.fract_nonneg _)

theorem jsMod_lt (a b : ℚ) (ha : 0 ≤ a) (hb : 0 < b) : jsMod a b < b := by
  rw [jsMod_eq_fract a b ha hb]
  calc b * Int.fract (a / b) < b * 1 := by
        exact mul_lt_mul_of_pos_left (Int.fract_lt_one _) hb
    _ = b := mul_one b

theorem animate_lost (s : EngineState) (env : TickEnv) (t : ℚ)
    (hlost : s.isContextLost = true) :
    Engine.animate s env t = ({ s with animationId := some env.nextAnimationId }, []) := by
  simp [Engine.animate, hlost]

theorem animate_dead (s : EngineState) (env : TickEnv) (t : ℚ)
    (hlost : s.isContextLost = false) (hgl : (!env.glPresent || env.glLost) = true) :
    Engine.animate s env t =
      ({ s with animationId := some env.nextAnimationId, isContextLost := true }, []) := by
  simp only [Engine.animate]
  simp [hlost, hgl]

theorem animate_skip (s : EngineState) (env : TickEnv) (t : ℚ)
    (hlost : s.isContextLost = false) (hgl : env.glPresent = true) (hnl : env.glLost = false)
    (hskip : t - s.lastFrameTime < s.frameInterval) :
    Engine.animate s env t = ({ s with animationId := some env.nextAnimationId }, []) := by
  simp [Engine.animate, hlost, hgl, hnl, hskip]

theorem animate_advance (s : EngineState) (env : TickEnv) (t : ℚ)
    (hlost : s.isContextLost = false) (hgl : env.glPresent = true) (hnl : env.glLost = false)
    (hadv : s.frameInterval ≤ t - s.lastFrameTime) :
    Engine.animate s env t = advanceResult s env t := by
  obtain ⟨cfg, ⟨bg, fog⟩, cam, ren, game, lastTime, aid, lost, fps, fi, lft⟩ := s
  obtain ⟨glp, gll, rt, glc, rgp, rgl, naid⟩ := env
  simp only at hlost hgl hnl hadv
  subst hlost hgl hnl
  have hx : ¬ (t - lft < fi) := not_lt.mpr hadv
  cases game <;> cases bg <;> cases rt <;> cases glc <;> cases rgp <;> cases rgl <;>
    simp [Engine.animate, advanceResult, hx, advanceDelta]

/-- C5: for every configuration, the target frame interval is 1000 / 30
milliseconds exactly when maxPixelRatio is present and 1000 / 60
milliseconds when it is absent; presence of maxPixelRatio is the sole
signal deciding the tier. -/
theorem frame_interval_tier (config : EngineConfig) (win : WindowEnv) :
    (Engine.new config win).frameInterval =
      if config.maxPixelRatio.isSome then 1000 / 30 else 1000 / 60 := rfl

/-- C2: on a healthy context, a tick whose elapsed time since
lastFrameTime is below the target interval does not advance: the state is
unchanged apart from the rescheduled animation id and no event is
emitted; otherwise the tick advances and lastFrameTime becomes the
timestamp minus the remainder of elapsed modulo the interval (not the
timestamp itself). -/
theorem tick_pacing (s : EngineState) (env : TickEnv) (t : ℚ)
    (hlost : s.isContextLost = false) (hgl : env.glPresent = true)
    (hnl : env.glLost = false) :
    (t - s.lastFrameTime < s.frameInterval →
      Engine.animate s env t = ({ s with animationId := some env.nextAnimationId }, [])) ∧
    (s.frameInterval ≤ t - s.lastFrameTime →
      (Engine.animate s env t).1.lastFrameTime
          = t - jsMod (t - s.lastFrameTime) s.frameInterval ∧
      (Engine.animate s env t).1.lastTime = t ∧
      Event.inputReset ∈ (Engine.animate s env t).2) := by
  refine ⟨fun h => animate_skip s env t hlost hgl hnl h, fun h => ?_⟩
  rw [animate_advance s env t hlost hgl hnl h]
  refine ⟨rfl, rfl, ?_⟩
  cases s.game <;> simp [advanceResult]

/-- Witness for tick_pacing at the sample state and timestamp 10. -/
theorem tick_pacing_witness :
    s0.isContextLost = false ∧ env0.glPresent = true ∧ env0.glLost = false ∧
    (((10 : ℚ) - s0.lastFrameTime < s0.frameInterval →
      Engine.animate s0 env0 10 = ({ s0 with animationId := some 5 }, [])) ∧
     (s0.frameInterval ≤ (10 : ℚ) - s0.lastFrameTime →
      (Engine.animate s0 env0 10).1.lastFrameTime
          = 10 - jsMod (10 - s0.lastFrameTime) s0.frameInterval ∧
      (Engine.animate s0 env0 10).1.lastTime = 10 ∧
      Event.inputReset ∈ (Engine.animate s0 env0 10).2)) :=
  ⟨rfl, rfl, rfl, tick_pacing s0 env0 10 rfl rfl rfl⟩

/-- C8: the bounds computed at Platform construction are the center minus
half the size and the center plus half the size componentwise, getBounds
returns exactly that pair, and for center zero and size (2, 2, 2) the
point (0.9, 0.9, 0.9) lies within the bounds on all three axes while
(1.1, 0, 0) does not. -/
theorem platform_bounds :
    (∀ position size : Vec3 ℚ,
      (Platform.new position size).getBounds =
        ⟨⟨position.x - size.x / 2, position.y - size.y / 2, position.z - size.z / 2⟩,
         ⟨position.x + size.x / 2, position.y + size.y / 2, position.z + size.z / 2⟩⟩) ∧
    (Platform.new ⟨0, 0, 0⟩ ⟨2, 2, 2⟩).getBounds.containsPoint ⟨9/10, 9/10, 9/10⟩ ∧
    ¬ (Platform.new ⟨0, 0, 0⟩ ⟨2, 2, 2⟩).getBounds.containsPoint ⟨11/10, 0, 0⟩ := by
  refine ⟨fun position size => rfl, ?_, ?_⟩
  · unfold Platform.new Platform.getBounds Bounds.containsPoint
    norm_num
  · unfold Platform.new Platform.getBounds Bounds.containsPoint
    norm_num

/-- C9: for an unfulfilled customer, checkInteraction holds exactly when
the straight-line distance to the player is strictly below the
interaction radius; the constructed radius is 2.5, and the check succeeds
at distance 2.4 while failing at distance 2.6. -/
theorem customer_interaction_spec :
    (∀ (c : Customer) (p : Vec3 ℝ), c.orderFulfilled = false →
      (c.checkInteraction p ↔ c.position.distanceTo p < c.interactionRadius)) ∧
    (∀ (pos : Vec3 ℝ) (ord : CustomerOrder),
      (Customer.new pos ord).interactionRadius = 5 / 2) ∧
    (Customer.new ⟨0, 0, 0⟩ ⟨[]⟩).checkInteraction ⟨12/5, 0, 0⟩ ∧
    ¬ (Customer.new ⟨0, 0, 0⟩ ⟨[]⟩).checkInteraction ⟨13/5, 0, 0⟩ := by
  have hd24 : Vec3.distanceTo ⟨0, 0, 0⟩ ⟨12/5, 0, 0⟩ = (12/5 : ℝ) := by
    unfold Vec3.distanceTo
    rw [show ((0 : ℝ) - 12/5) ^ 2 + (0 - 0) ^ 2 + (0 - 0) ^ 2 = (12/5 : ℝ) ^ 2 by norm_num]
    exact Real.sqrt_sq (by norm_num)
  have hd26 : Vec3.distanceTo ⟨0, 0, 0⟩ ⟨13/5, 0, 0⟩ = (13/5 : ℝ) := by
    unfold Vec3.distanceTo
    rw [show ((0 : ℝ) - 13/5) ^ 2 + (0 - 0) ^ 2 + (0 - 0) ^ 2 = (13/5 : ℝ) ^ 2 by norm_num]
    exact Real.sqrt_sq (by norm_num)
  refine ⟨fun c p hf => ?_, fun pos ord => rfl, ⟨rfl, ?_⟩, ?_⟩
  · unfold Customer.checkInteraction
    simp [hf]
  · show Vec3.distanceTo _ _ < _
    rw [show (Customer.new ⟨0, 0, 0⟩ ⟨[]⟩).position = (⟨0, 0, 0⟩ : Vec3 ℝ) from rfl, hd24]
    norm_num [Customer.new]
  · rintro ⟨-, hlt⟩
    rw [show (Customer.new ⟨0, 0, 0⟩ ⟨[]⟩).position = (⟨0, 0, 0⟩ : Vec3 ℝ) from rfl, hd26] at hlt
    norm_num [Customer.new] at hlt

/-- Witness for customer_interaction_spec at a concrete unfulfilled
customer. -/
theorem customer_interaction_witness :
    (Customer.new ⟨0, 0, 0⟩ ⟨[]⟩).orderFulfilled = false ∧
    ((Customer.new ⟨0, 0, 0⟩ ⟨[]⟩).checkInteraction ⟨1, 0, 0⟩ ↔
      Vec3.distanceTo ⟨0, 0, 0⟩ ⟨1, 0, 0⟩ < (Customer.new ⟨0, 0, 0⟩ ⟨[]⟩).interactionRadius) :=
  ⟨rfl, customer_interaction_spec.1 (Customer.new ⟨0, 0, 0⟩ ⟨[]⟩) ⟨1, 0, 0⟩ rfl⟩

theorem ingredientsMatchLoop_eq (p o : List IngredientType) (hlen : p.length = o.length) :
    ingredientsMatchLoop p o = true ↔ p = o := by
  induction p generalizing o with
  | nil =>
    cases o with
    | nil => simp [ingredientsMatchLoop]
    | cons b bs => simp at hlen
  | cons a as ih =>
    cases o with
    | nil => simp at hlen
    | cons b bs =>
      simp only [List.length_cons, Nat.succ_inj] at hlen
      simp only [ingredientsMatchLoop, Bool.and_eq_true, beq_iff_eq, List.cons.injEq]
      rw [ih bs hlen]

/-- C10: validateOrder accepts exactly when the order is not yet
fulfilled, the player list has the same length as the order, and the two
lists agree at every position. -/
theorem validateOrder_spec (c : Customer) (p : List IngredientType) :
    c.validateOrder p = true ↔
      (c.orderFulfilled = false ∧ p.length = c.order.ingredients.length ∧
       ∀ i, i < c.order.ingredients.length → p[i]? = c.order.ingredients[i]?) := by
  unfold Customer.validateOrder
  cases hf : c.orderFulfilled with
  | true => simp [hf]
  | false =>
    simp only [Bool.false_eq_true, if_false]
    by_cases hlen : p.length = c.order.ingredients.length
    · rw [if_neg (not_not_intro hlen), ingredientsMatchLoop_eq p _ hlen]
      constructor
      · intro hpo
        subst hpo
        simp
      · intro h
        have hpt : ∀ i, i < c.order.ingredients.length → p[i]? = c.order.ingredients[i]? := by
          tauto
        apply List.ext_getElem?
        intro i
        by_cases hi : i < c.order.ingredients.length
        · exact hpt i hi
        · rw [List.getElem?_eq_none (by omega), List.getElem?_eq_none (by omega)]
    · rw [if_pos hlen]
      simp only [Bool.false_eq_true, false_iff]
      intro h
      have hlen2 : p.length = c.order.ingredients.length := by tauto
      exact hlen hlen2

theorem animate_cases (P : EngineState × List Event → Prop)
    (s : EngineState) (env : TickEnv) (t : ℚ)
    (h1 : s.isContextLost = true → P ({ s with animationId := some env.nextAnimationId }, []))
    (h2 : s.isContextLost = false → (!env.glPresent || env.glLost) = true →
      P ({ s with animationId := some env.nextAnimationId, isContextLost := true }, []))
    (h3 : s.isContextLost = false → env.glPresent = true → env.glLost = false →
      t - s.lastFrameTime < s.frameInterval →
      P ({ s with animationId := some env.nextAnimationId }, []))
    (h4 : s.isContextLost = false → env.glPresent = true → env.glLost = false →
      s.frameInterval ≤ t - s.lastFrameTime → P (advanceResult s env t)) :
    P (Engine.animate s env t) := by
  by_cases hlost : s.isContextLost = true
  · rw [animate_lost s env t hlost]
    exact h1 hlost
  · have hl : s.isContextLost = false := by
      cases h : s.isContextLost
      · rfl
      · exact absurd h hlost
    by_cases hgl : (!env.glPresent || env.glLost) = true
    · rw [animate_dead s env t hl hgl]
      exact h2 hl hgl
    · have hglp : env.glPresent = true := by
        cases h : env.glPresent
        · exact absurd (by simp [h]) hgl
        · rfl
      have hgll : env.glLost = false := by
        cases h : env.glLost
        · rfl
        · exact absurd (by simp [h]) hgl
      by_cases hadv : t - s.lastFrameTime < s.frameInterval
      · rw [animate_skip s env t hl hglp hgll hadv]
        exact h3 hl hglp hgll hadv
      · rw [animate_advance s env t hl hglp hgll (not_lt.mp hadv)]
        exact h4 hl hglp hgll (not_lt.mp hadv)

theorem animate_frameInterval (s : EngineState) (env : TickEnv) (t : ℚ) :
    (Engine.animate s env t).1.frameInterval = s.frameInterval := by
  refine animate_cases (fun r => r.1.frameInterval = s.frameInterval) s env t ?_ ?_ ?_ ?_ <;>
    intros <;> rfl

theorem animate_game (s : EngineState) (env : TickEnv) (t : ℚ) :
    (Engine.animate s env t).1.game = s.game := by
  refine animate_cases (fun r => r.1.game = s.game) s env t ?_ ?_ ?_ ?_ <;>
    intros <;> rfl

theorem animate_config (s : EngineState) (env : TickEnv) (t : ℚ) :
    (Engine.animate s env t).1.config = s.config := by
  refine animate_cases (fun r => r.1.config = s.config) s env t ?_ ?_ ?_ ?_ <;>
    intros <;> rfl

theorem advance_t_pos (s : EngineState) (t : ℚ) (hInv : ClockInv s)
    (hadv : s.frameInterval ≤ t - s.lastFrameTime) : 0 < t := by
  obtain ⟨hfi, hc⟩ := hInv
  rcases hc with ⟨h0, hf0⟩ | ⟨hpos, hlt⟩
  · rw [hf0] at hadv
    linarith
  · linarith

theorem advanceDelta_nonneg (s : EngineState) (t : ℚ) (hInv : ClockInv s)
    (hadv : s.frameInterval ≤ t - s.lastFrameTime) : 0 ≤ advanceDelta s t := by
  unfold advanceDelta
  obtain ⟨hfi, hc⟩ := hInv
  split
  · rename_i hne
    rcases hc with ⟨h0, hf0⟩ | ⟨hpos, hlt⟩
    · exact absurd h0 hne
    · have ht : s.lastTime < t := by linarith
      have : (0 : ℚ) ≤ t - s.lastTime := by linarith
      positivity
  · exact le_refl 0

theorem animate_clockInv (s : EngineState) (env : TickEnv) (t : ℚ) (hInv : ClockInv s) :
    ClockInv (Engine.animate s env t).1 := by
  refine animate_cases (fun r => ClockInv r.1) s env t ?_ ?_ ?_ ?_
  · intro _
    exact hInv
  · intro _ _
    exact hInv
  · intro _ _ _ _
    exact hInv
  · intro hl hp hn hadv
    obtain ⟨hfi, hc⟩ := hInv
    have ht : 0 < t := advance_t_pos s t ⟨hfi, hc⟩ hadv
    have hel : (0 : ℚ) ≤ t - s.lastFrameTime := le_trans hfi.le hadv
    have hmod := jsMod_lt (t - s.lastFrameTime) s.frameInterval hel hfi
    refine ⟨hfi, Or.inr ⟨ht, ?_⟩⟩
    show t - s.frameInterval < t - jsMod (t - s.lastFrameTime) s.frameInterval
    linarith

theorem animate_update_nonneg (s : EngineState) (env : TickEnv) (t : ℚ) (g : ℕ) (d : ℚ)
    (hInv : ClockInv s) (hmem : Event.update g d ∈ (Engine.animate s env t).2) : 0 ≤ d := by
  revert hmem
  refine animate_cases (fun r => Event.update g d ∈ r.2 → 0 ≤ d) s env t ?_ ?_ ?_ ?_
  · intro _ h
    simp at h
  · intro _ _ h
    simp at h
  · intro _ _ _ _ h
    simp at h
  · intro hl hp hn hadv h
    have hd : d = advanceDelta s t := by
      rcases hg : s.game with _ | g2 <;> cases hrt : env.renderThrows <;>
        simp [advanceResult, hg, hrt] at h <;> exact h.2
    rw [hd]
    exact advanceDelta_nonneg s t hInv hadv

theorem animate_zero_quiet (s : EngineState) (env : TickEnv)
    (h0 : s.lastTime = 0) (hf0 : s.lastFrameTime = 0) (hfi : 0 < s.frameInterval) :
    (Engine.animate s env 0).2 = [] ∧
    (Engine.animate s env 0).1.game = s.game ∧
    (Engine.animate s env 0).1.lastTime = 0 ∧
    (Engine.animate s env 0).1.lastFrameTime = 0 := by
  refine animate_cases
    (fun r => r.2 = [] ∧ r.1.game = s.game ∧ r.1.lastTime = 0 ∧ r.1.lastFrameTime = 0)
    s env 0 ?_ ?_ ?_ ?_
  · intro _
    exact ⟨rfl, rfl, h0, hf0⟩
  · intro _ _
    exact ⟨rfl, rfl, h0, hf0⟩
  · intro _ _ _ _
    exact ⟨rfl, rfl, h0, hf0⟩
  · intro _ _ _ hadv
    rw [hf0] at hadv
    simp at hadv
    linarith

theorem animate_quiet_clock (s : EngineState) (env : TickEnv) (t : ℚ)
    (hq : (Engine.animate s env t).2 = []) :
    (Engine.animate s env t).1.lastTime = s.lastTime ∧
    (Engine.animate s env t).1.lastFrameTime = s.lastFrameTime ∧
    (Engine.animate s env t).1.game = s.game := by
  revert hq
  refine animate_cases
    (fun r => r.2 = [] → r.1.lastTime = s.lastTime ∧
      r.1.lastFrameTime = s.lastFrameTime ∧ r.1.game = s.game)
    s env t ?_ ?_ ?_ ?_
  · intro _ _
    exact ⟨rfl, rfl, rfl⟩
  · intro _ _ _
    exact ⟨rfl, rfl, rfl⟩
  · intro _ _ _ _ _
    exact ⟨rfl, rfl, rfl⟩
  · intro _ _ _ _ h
    rcases hg : s.game with _ | g2 <;> simp [advanceResult, hg] at h

theorem stop_eq (s : EngineState) :
    Engine.stop s =
      ({ s with animationId := none, game := none },
       match s.game with
       | some g => [Event.disposeGame g]
       | none => []) := by
  obtain ⟨cfg, sc, cam, ren, game, lt, aid, lost, fps, fi, lft⟩ := s
  cases game <;> rfl

theorem run_none (s : EngineState) (g : ℕ) (env : TickEnv) (hg : s.game = none) :
    Engine.run s g env =
      Engine.animate { s with game := some g, lastTime := 0, lastFrameTime := 0 } env 0 := by
  unfold Engine.run
  rw [hg]
  rfl

theorem run_some (s : EngineState) (gOld g : ℕ) (env : TickEnv) (hg : s.game = some gOld) :
    Engine.run s g env =
      ((Engine.animate
          { s with animationId := none, game := some g, lastTime := 0, lastFrameTime := 0 }
          env 0).1,
       Event.disposeGame gOld ::
        (Engine.animate
          { s with animationId := none, game := some g, lastTime := 0, lastFrameTime := 0 }
          env 0).2) := by
  unfold Engine.run
  rw [hg]
  simp only [Option.isSome_some, if_pos, stop_eq, hg]
  rfl

theorem step_frameInterval (s : EngineState) (op : Op) :
    (Engine.step s op).1.frameInterval = s.frameInterval := by
  cases op with
  | tick t env => exact animate_frameInterval s env t
  | contextLost => rfl
  | contextRestored win => rfl
  | run g env =>
    show (Engine.run s g env).1.frameInterval = s.frameInterval
    rcases hg : s.game with _ | gOld
    · rw [run_none s g env hg]
      exact animate_frameInterval _ env 0
    · rw [run_some s gOld g env hg]
      exact animate_frameInterval _ env 0
  | stop =>
    show (Engine.stop s).1.frameInterval = s.frameInterval
    rw [stop_eq]
  | resize win =>
    show (Engine.handleResize s win).1.frameInterval = s.frameInterval
    unfold Engine.handleResize
    rcases s.game <;> rfl

theorem step_clockInv (s : EngineState) (op : Op) (hInv : ClockInv s) :
    ClockInv (Engine.step s op).1 := by
  cases op with
  | tick t env => exact animate_clockInv s env t hInv
  | contextLost => exact hInv
  | contextRestored win => exact hInv
  | run g env =>
    show ClockInv (Engine.run s g env).1
    rcases hg : s.game with _ | gOld
    · rw [run_none s g env hg]
      exact animate_clockInv _ env 0 ⟨hInv.1, Or.inl ⟨rfl, rfl⟩⟩
    · rw [run_some s gOld g env hg]
      exact animate_clockInv _ env 0 ⟨hInv.1, Or.inl ⟨rfl, rfl⟩⟩
  | stop =>
    show ClockInv (Engine.stop s).1
    rw [stop_eq]
    exact hInv
  | resize win =>
    show ClockInv (Engine.handleResize s win).1
    unfold Engine.handleResize
    rcases s.game <;> exact hInv

theorem step_update_nonneg (s : EngineState) (op : Op) (hInv : ClockInv s) (g : ℕ) (d : ℚ)
    (hmem : Event.update g d ∈ (Engine.step s op).2) : 0 ≤ d := by
  cases op with
  | tick t env => exact animate_update_nonneg s env t g d hInv hmem
  | contextLost => simp [Engine.step] at hmem
  | contextRestored win => simp [Engine.step] at hmem
  | run gNew env =>
    rcases hg : s.game with _ | gOld
    · rw [show Engine.step s (Op.run gNew env) = Engine.run s gNew env from rfl,
        run_none s gNew env hg] at hmem
      rw [(animate_zero_quiet
        { s with game := some gNew, lastTime := 0, lastFrameTime := 0 }
        env rfl rfl hInv.1).1] at hmem
      simp at hmem
    · rw [show Engine.step s (Op.run gNew env) = Engine.run s gNew env from rfl,
        run_some s gOld gNew env hg] at hmem
      rw [show ((Engine.animate
          { s with animationId := none, game := some gNew, lastTime := 0, lastFrameTime := 0 }
          env 0).1,
        Event.disposeGame gOld ::
          (Engine.animate
            { s with animationId := none, game := some gNew, lastTime := 0, lastFrameTime := 0 }
            env 0).2).2 =
        Event.disposeGame gOld ::
          (Engine.animate
            { s with animationId := none, game := some gNew, lastTime := 0, lastFrameTime := 0 }
            env 0).2 from rfl] at hmem
      rw [(animate_zero_quiet
        { s with animationId := none, game := some gNew, lastTime := 0, lastFrameTime := 0 }
        env rfl rfl hInv.1).1] at hmem
      simp at hmem
  | stop =>
    rw [show Engine.step s Op.stop = Engine.stop s from rfl, stop_eq] at hmem
    rcases hg : s.game <;> simp [hg] at hmem
  | resize win =>
    have : (Engine.step s (Op.resize win)).2 = (Engine.handleResize s win).2 := rfl
    rw [this] at hmem
    unfold Engine.handleResize at hmem
    rcases hg : s.game <;> simp [hg] at hmem

theorem runTrace_update_nonneg (ops : List Op) (s : EngineState) (hInv : ClockInv s)
    (g : ℕ) (d : ℚ) (hmem : Event.update g d ∈ (Engine.runTrace s ops).2) : 0 ≤ d := by
  induction ops generalizing s with
  | nil => simp [Engine.runTrace] at hmem
  | cons op rest ih =>
    simp only [Engine.runTrace, List.mem_append] at hmem
    rcases hmem with h | h
    · exact step_update_nonneg s op hInv g d h
    · exact ih (Engine.step s op).1 (step_clockInv s op hInv) h

theorem clockInv_new (config : EngineConfig) (win : WindowEnv) :
    ClockInv (Engine.new config win) := by
  refine ⟨?_, Or.inl ⟨rfl, rfl⟩⟩
  show (0 : ℚ) < if config.maxPixelRatio.isSome then 1000 / 30 else 1000 / 60
  split <;> norm_num

/-- C3: from a freshly constructed engine, across any operation sequence
that starts a game (arbitrary raw callback timestamps afterwards, with no
monotonicity assumption), every delta-seconds value carried by a game
update event is nonnegative. -/
theorem update_delta_nonneg (config : EngineConfig) (win : WindowEnv)
    (g0 : ℕ) (envr : TickEnv) (ops : List Op) (g : ℕ) (d : ℚ)
    (hmem : Event.update g d ∈
      (Engine.runTrace (Engine.new config win) (Op.run g0 envr :: ops)).2) :
    0 ≤ d :=
  runTrace_update_nonneg (Op.run g0 envr :: ops) (Engine.new config win)
    (clockInv_new config win) g d hmem

/-- Witness for update_delta_nonneg on a short concrete session. -/
theorem update_delta_nonneg_witness :
    Event.update 1 0 ∈
      (Engine.runTrace (Engine.new cfg0 win0) [Op.run 1 env0, Op.tick 100 env0]).2 ∧
    (0 : ℚ) ≤ 0 := by
  have hmem : Event.update 1 0 ∈
      (Engine.runTrace (Engine.new cfg0 win0) [Op.run 1 env0, Op.tick 100 env0]).2 := by
    norm_num [Engine.runTrace, Engine.step, Engine.animate, Engine.run, Engine.stop, Engine.new,
      cfg0, win0, env0, jsMod, ratTrunc]
  exact ⟨hmem, update_delta_nonneg cfg0 win0 1 env0 [Op.tick 100 env0] 1 0 hmem⟩

theorem runTrace_quiet_clock (pre : List Op) (s : EngineState)
    (hticks : ∀ op ∈ pre, isTickOp op)
    (hq : (Engine.runTrace s pre).2 = []) :
    (Engine.runTrace s pre).1.lastTime = s.lastTime := by
  induction pre generalizing s with
  | nil => rfl
  | cons op rest ih =>
    have htick := hticks op (List.mem_cons_self op rest)
    cases op with
    | tick t env =>
      simp only [Engine.runTrace, List.append_eq_nil] at hq
      obtain ⟨h1, h2⟩ := hq
      have hclock := animate_quiet_clock s env t h1
      show (Engine.runTrace (Engine.step s (Op.tick t env)).1 rest).1.lastTime = s.lastTime
      rw [ih (Engine.step s (Op.tick t env)).1
        (fun op h => hticks op (List.mem_cons_of_mem _ h)) h2]
      exact hclock.1
    | contextLost => exact htick.elim
    | contextRestored win => exact htick.elim
    | run g env => exact htick.elim
    | stop => exact htick.elim
    | resize win => exact htick.elim

theorem animate_update_lastTime_zero (s : EngineState) (env : TickEnv) (t : ℚ) (g : ℕ) (d : ℚ)
    (h0 : s.lastTime = 0)
    (hmem : Event.update g d ∈ (Engine.animate s env t).2) : d = 0 := by
  revert hmem
  refine animate_cases (fun r => Event.update g d ∈ r.2 → d = 0) s env t ?_ ?_ ?_ ?_
  · intro _ h
    simp at h
  · intro _ _ h
    simp at h
  · intro _ _ _ _ h
    simp at h
  · intro _ _ _ _ h
    have hd : d = advanceDelta s t := by
      rcases hg : s.game with _ | g3 <;> cases hrt : env.renderThrows <;>
        simp [advanceResult, hg, hrt] at h <;> exact h.2
    rw [hd]
    unfold advanceDelta
    simp [h0]

/-- C4: the first tick of a session that advances past frame pacing hands
delta zero to the game update: after run resets the clock sentinel, a
sequence of ticks that all stayed quiet leaves lastTime at zero, and an
advancing tick from a zero lastTime computes delta zero. -/
theorem first_advancing_tick_delta_zero (config : EngineConfig) (win : WindowEnv)
    (g : ℕ) (envr : TickEnv) (pre : List Op) (t : ℚ) (env : TickEnv) (g2 : ℕ) (d : ℚ)
    (hticks : ∀ op ∈ pre, isTickOp op)
    (hquiet : (Engine.runTrace (Engine.run (Engine.new config win) g envr).1 pre).2 = [])
    (hmem : Event.update g2 d ∈
      (Engine.animate
        (Engine.runTrace (Engine.run (Engine.new config win) g envr).1 pre).1 env t).2) :
    d = 0 := by
  have hrun0 : (Engine.run (Engine.new config win) g envr).1.lastTime = 0 := by
    rw [run_none (Engine.new config win) g envr rfl]
    exact (animate_zero_quiet
      { Engine.new config win with game := some g, lastTime := 0, lastFrameTime := 0 }
      envr rfl rfl (clockInv_new config win).1).2.2.1
  have h0 : (Engine.runTrace (Engine.run (Engine.new config win) g envr).1 pre).1.lastTime
      = 0 := by
    rw [runTrace_quiet_clock pre _ hticks hquiet, hrun0]
  exact animate_update_lastTime_zero _ env t g2 d h0 hmem

/-- Witness for first_advancing_tick_delta_zero with an empty quiet
prefix and an advancing tick at timestamp 100. -/
theorem first_advancing_tick_delta_zero_witness :
    (Engine.runTrace (Engine.run (Engine.new cfg0 win0) 1 env0).1 []).2 = [] ∧
    Event.update 1 0 ∈
      (Engine.animate
        (Engine.runTrace (Engine.run (Engine.new cfg0 win0) 1 env0).1 []).1 env0 100).2 ∧
    (0 : ℚ) = 0 := by
  have hmem : Event.update 1 0 ∈
      (Engine.animate
        (Engine.runTrace (Engine.run (Engine.new cfg0 win0) 1 env0).1 []).1 env0 100).2 := by
    norm_num [Engine.runTrace, Engine.animate, Engine.run, Engine.stop, Engine.new,
      cfg0, win0, env0, jsMod, ratTrunc]
  exact ⟨rfl, hmem,
    first_advancing_tick_delta_zero cfg0 win0 1 env0 [] 100 env0 1 0
      (fun op h => absurd h (List.not_mem_nil op)) rfl hmem⟩

theorem animate_no_dispose (s : EngineState) (env : TickEnv) (t : ℚ) (e : Event)
    (he : e ∈ (Engine.animate s env t).2) (gx : ℕ) : e ≠ Event.disposeGame gx := by
  revert he
  refine animate_cases (fun r => e ∈ r.2 → e ≠ Event.disposeGame gx) s env t ?_ ?_ ?_ ?_
  · intro _ h
    simp at h
  · intro _ _ h
    simp at h
  · intro _ _ _ _ h
    simp at h
  · intro _ _ _ _ h hcontra
    subst hcontra
    rcases hg : s.game with _ | g2 <;> cases hrt : env.renderThrows <;>
      simp [advanceResult, hg, hrt] at h

theorem animate_update_owner (s : EngineState) (env : TickEnv) (t : ℚ) (gx : ℕ) (dx : ℚ)
    (he : Event.update gx dx ∈ (Engine.animate s env t).2) : s.game = some gx := by
  revert he
  refine animate_cases (fun r => Event.update gx dx ∈ r.2 → s.game = some gx) s env t ?_ ?_ ?_ ?_
  · intro _ h
    simp at h
  · intro _ _ h
    simp at h
  · intro _ _ _ _ h
    simp at h
  · intro _ _ _ _ h
    rcases hg : s.game with _ | g2
    · cases hrt : env.renderThrows <;> simp [advanceResult, hg, hrt] at h
    · cases hrt : env.renderThrows <;> simp [advanceResult, hg, hrt] at h <;> rw [h.1]

theorem nonsession_step_game (s : EngineState) (op : Op) (h : NonSessionOp op) :
    (Engine.step s op).1.game = s.game := by
  cases op with
  | tick t env => exact animate_game s env t
  | contextLost => rfl
  | contextRestored win => rfl
  | run g env => exact h.elim
  | stop => exact h.elim
  | resize win =>
    show (Engine.handleResize s win).1.game = s.game
    unfold Engine.handleResize
    rcases hg : s.game <;> simp [hg]

theorem nonsession_step_no_dispose (s : EngineState) (op : Op) (h : NonSessionOp op)
    (e : Event) (he : e ∈ (Engine.step s op).2) (gx : ℕ) : e ≠ Event.disposeGame gx := by
  cases op with
  | tick t env => exact animate_no_dispose s env t e he gx
  | contextLost => simp [Engine.step] at he
  | contextRestored win => simp [Engine.step] at he
  | run g env => exact h.elim
  | stop => exact h.elim
  | resize win =>
    intro hcontra
    subst hcontra
    have hev : (Engine.step s (Op.resize win)).2 = (Engine.handleResize s win).2 := rfl
    rw [hev] at he
    unfold Engine.handleResize at he
    rcases hg : s.game <;> simp [hg] at he

theorem nonsession_step_update_owner (s : EngineState) (op : Op) (h : NonSessionOp op)
    (gx : ℕ) (dx : ℚ) (he : Event.update gx dx ∈ (Engine.step s op).2) : s.game = some gx := by
  cases op with
  | tick t env => exact animate_update_owner s env t gx dx he
  | contextLost => simp [Engine.step] at he
  | contextRestored win => simp [Engine.step] at he
  | run g env => exact h.elim
  | stop => exact h.elim
  | resize win =>
    have hev : (Engine.step s (Op.resize win)).2 = (Engine.handleResize s win).2 := rfl
    rw [hev] at he
    unfold Engine.handleResize at he
    rcases hg : s.game <;> simp [hg] at he

theorem nonsession_trace_game (ops : List Op) (s : EngineState)
    (h : ∀ op ∈ ops, NonSessionOp op) :
    (Engine.runTrace s ops).1.game = s.game := by
  induction ops generalizing s with
  | nil => rfl
  | cons op rest ih =>
    show (Engine.runTrace (Engine.step s op).1 rest).1.game = s.game
    rw [ih (Engine.step s op).1 (fun o ho => h o (List.mem_cons_of_mem _ ho)),
      nonsession_step_game s op (h op (List.mem_cons_self _ _))]

theorem nonsession_trace_no_dispose (ops : List Op) (s : EngineState)
    (h : ∀ op ∈ ops, NonSessionOp op) (e : Event)
    (he : e ∈ (Engine.runTrace s ops).2) (gx : ℕ) : e ≠ Event.disposeGame gx := by
  induction ops generalizing s with
  | nil => simp [Engine.runTrace] at he
  | cons op rest ih =>
    simp only [Engine.runTrace, List.mem_append] at he
    rcases he with h1 | h1
    · exact nonsession_step_no_dispose s op (h op (List.mem_cons_self _ _)) e h1 gx
    · exact ih (Engine.step s op).1 (fun o ho => h o (List.mem_cons_of_mem _ ho)) h1

theorem nonsession_trace_update_owner (ops : List Op) (s : EngineState)
    (h : ∀ op ∈ ops, NonSessionOp op) (gx : ℕ) (dx : ℚ)
    (he : Event.update gx dx ∈ (Engine.runTrace s ops).2) : s.game = some gx := by
  induction ops generalizing s with
  | nil => simp [Engine.runTrace] at he
  | cons op rest ih =>
    simp only [Engine.runTrace, List.mem_append] at he
    rcases he with h1 | h1
    · exact nonsession_step_update_owner s op (h op (List.mem_cons_self _ _)) gx dx h1
    · rw [← nonsession_step_game s op (h op (List.mem_cons_self _ _))]
      exact ih (Engine.step s op).1 (fun o ho => h o (List.mem_cons_of_mem _ ho)) h1

theorem runTrace_append (s : EngineState) (l1 l2 : List Op) :
    Engine.runTrace s (l1 ++ l2) =
      ((Engine.runTrace (Engine.runTrace s l1).1 l2).1,
       (Engine.runTrace s l1).2 ++ (Engine.runTrace (Engine.runTrace s l1).1 l2).2) := by
  induction l1 generalizing s with
  | nil => rfl
  | cons op rest ih =>
    simp only [List.cons_append, Engine.runTrace, List.append_eq]
    rw [ih (Engine.step s op).1]
    simp [List.append_assoc]

theorem runTrace_frameInterval (ops : List Op) (s : EngineState) :
    (Engine.runTrace s ops).1.frameInterval = s.frameInterval := by
  induction ops generalizing s with
  | nil => rfl
  | cons op rest ih =>
    show (Engine.runTrace (Engine.step s op).1 rest).1.frameInterval = s.frameInterval
    rw [ih (Engine.step s op).1, step_frameInterval]

theorem run_fresh (s : EngineState) (g : ℕ) (env : TickEnv) (hg : s.game = none)
    (hfi : 0 < s.frameInterval) :
    (Engine.run s g env).2 = [] ∧ (Engine.run s g env).1.game = some g ∧
    (Engine.run s g env).1.frameInterval = s.frameInterval := by
  rw [run_none s g env hg]
  have hq := animate_zero_quiet
    { s with game := some g, lastTime := 0, lastFrameTime := 0 } env rfl rfl hfi
  exact ⟨hq.1, hq.2.1, animate_frameInterval _ env 0⟩

theorem run_switch (s : EngineState) (gOld g : ℕ) (env : TickEnv) (hg : s.game = some gOld)
    (hfi : 0 < s.frameInterval) :
    (Engine.run s g env).2 = [Event.disposeGame gOld] ∧
    (Engine.run s g env).1.game = some g ∧
    (Engine.run s g env).1.frameInterval = s.frameInterval := by
  rw [run_some s gOld g env hg]
  have hq := animate_zero_quiet
    { s with animationId := none, game := some g, lastTime := 0, lastFrameTime := 0 }
    env rfl rfl hfi
  refine ⟨?_, hq.2.1, animate_frameInterval _ env 0⟩
  show Event.disposeGame gOld :: (Engine.animate
    { s with animationId := none, game := some g, lastTime := 0, lastFrameTime := 0 }
    env 0).2 = [Event.disposeGame gOld]
  rw [hq.1]

theorem trace_switch_shape (s1 : EngineState) (A B : ℕ) (envB : TickEnv)
    (mid post : List Op) (hmid : ∀ op ∈ mid, NonSessionOp op)
    (hg : s1.game = some A) (hfi : 0 < s1.frameInterval) :
    (Engine.runTrace s1 (mid ++ Op.run B envB :: post)).2
      = (Engine.runTrace s1 mid).2 ++ Event.disposeGame A ::
        (Engine.runTrace
          (Engine.step (Engine.runTrace s1 mid).1 (Op.run B envB)).1 post).2 := by
  rw [runTrace_append]
  have hs2game : (Engine.runTrace s1 mid).1.game = some A := by
    rw [nonsession_trace_game mid s1 hmid, hg]
  have hs2fi : 0 < (Engine.runTrace s1 mid).1.frameInterval := by
    rw [runTrace_frameInterval mid s1]
    exact hfi
  have hswitch := run_switch (Engine.runTrace s1 mid).1 A B envB hs2game hs2fi
  have hcons : (Engine.runTrace (Engine.runTrace s1 mid).1 (Op.run B envB :: post)).2
      = (Engine.step (Engine.runTrace s1 mid).1 (Op.run B envB)).2 ++
        (Engine.runTrace
          (Engine.step (Engine.runTrace s1 mid).1 (Op.run B envB)).1 post).2 := rfl
  show (Engine.runTrace s1 mid).2 ++
      (Engine.runTrace (Engine.runTrace s1 mid).1 (Op.run B envB :: post)).2 = _
  rw [hcons,
    show (Engine.step (Engine.runTrace s1 mid).1 (Op.run B envB)).2
      = [Event.disposeGame A] from hswitch.1]
  simp

/-- C6: starting game A and later game B (with any non-session operations
in between and after) emits the disposal of A exactly once, and no update
of B ever occurs before that disposal. -/
theorem start_new_game_disposes_old (config : EngineConfig) (win : WindowEnv)
    (A B : ℕ) (hAB : A ≠ B) (envA envB : TickEnv) (mid post : List Op)
    (hmid : ∀ op ∈ mid, NonSessionOp op) (hpost : ∀ op ∈ post, NonSessionOp op) :
    ∃ tr1 tr2,
      (Engine.runTrace (Engine.new config win)
          (Op.run A envA :: (mid ++ Op.run B envB :: post))).2
        = tr1 ++ Event.disposeGame A :: tr2 ∧
      (∀ e ∈ tr1, e ≠ Event.disposeGame A) ∧
      (∀ e ∈ tr2, e ≠ Event.disposeGame A) ∧
      (∀ dx : ℚ, Event.update B dx ∉ tr1) := by
  have hfi0 : (0 : ℚ) < (Engine.new config win).frameInterval := (clockInv_new config win).1
  obtain ⟨hAev, hAgame, hAfi⟩ := run_fresh (Engine.new config win) A envA rfl hfi0
  have hhead : (Engine.runTrace (Engine.new config win)
      (Op.run A envA :: (mid ++ Op.run B envB :: post))).2
    = (Engine.run (Engine.new config win) A envA).2 ++
      (Engine.runTrace (Engine.run (Engine.new config win) A envA).1
        (mid ++ Op.run B envB :: post)).2 := rfl
  rw [hhead, hAev, List.nil_append,
    trace_switch_shape (Engine.run (Engine.new config win) A envA).1 A B envB mid post hmid
      hAgame (by rw [hAfi]; exact hfi0)]
  refine ⟨_, _, rfl, ?_, ?_, ?_⟩
  · intro e he
    exact nonsession_trace_no_dispose mid _ hmid e he A
  · intro e he
    exact nonsession_trace_no_dispose post _ hpost e he A
  · intro dx hin
    have hown := nonsession_trace_update_owner mid _ hmid B dx hin
    rw [hAgame] at hown
    exact hAB (Option.some.inj hown)

/-- Witness for start_new_game_disposes_old on a concrete two-session
script with one tick between the starts and one after. -/
theorem start_new_game_disposes_old_witness :
    (1 : ℕ) ≠ 2 ∧
    (∃ tr1 tr2,
      (Engine.runTrace (Engine.new cfg0 win0)
          (Op.run 1 env0 :: ([Op.tick 100 env0] ++ Op.run 2 env0 :: [Op.tick 200 env0]))).2
        = tr1 ++ Event.disposeGame 1 :: tr2 ∧
      (∀ e ∈ tr1, e ≠ Event.disposeGame 1) ∧
      (∀ e ∈ tr2, e ≠ Event.disposeGame 1) ∧
      (∀ dx : ℚ, Event.update 2 dx ∉ tr1)) :=
  ⟨by decide,
   start_new_game_disposes_old cfg0 win0 1 2 (by decide) env0 env0
     [Op.tick 100 env0] [Op.tick 200 env0]
     (by
       intro op h
       simp only [List.mem_singleton] at h
       subst h
       trivial)
     (by
       intro op h
       simp only [List.mem_singleton] at h
       subst h
       trivial)⟩

theorem lost_trace_frozen (mid : List Op) (s : EngineState)
    (hlost : s.isContextLost = true) (hmid : ∀ op ∈ mid, isTickOp op) :
    (Engine.runTrace s mid).2 = [] ∧
    (Engine.runTrace s mid).1
      = { s with animationId := (Engine.runTrace s mid).1.animationId } := by
  induction mid generalizing s with
  | nil => exact ⟨rfl, rfl⟩
  | cons op rest ih =>
    have htick := hmid op (List.mem_cons_self _ _)
    cases op with
    | tick t env =>
      have hstep : Engine.step s (Op.tick t env)
          = ({ s with animationId := some env.nextAnimationId }, []) :=
        animate_lost s env t hlost
      obtain ⟨h1, h2⟩ := ih { s with animationId := some env.nextAnimationId } hlost
        (fun o ho => hmid o (List.mem_cons_of_mem _ ho))
      have hTT : Engine.runTrace s (Op.tick t env :: rest)
          = Engine.runTrace { s with animationId := some env.nextAnimationId } rest := by
        show ((Engine.runTrace (Engine.step s (Op.tick t env)).1 rest).1,
              (Engine.step s (Op.tick t env)).2 ++
                (Engine.runTrace (Engine.step s (Op.tick t env)).1 rest).2) = _
        rw [hstep]
        simp
      rw [hTT]
      exact ⟨h1, h2⟩
    | contextLost => exact htick.elim
    | contextRestored win => exact htick.elim
    | run g env => exact htick.elim
    | stop => exact htick.elim
    | resize win => exact htick.elim

theorem applyShadow_restore (config : EngineConfig) (win : WindowEnv) :
    applyShadowConfig config
      { applyShadowConfig config (baseRenderer config win) with
          width := win.innerWidth, height := win.innerHeight,
          pixelRatio := computePixelRatio config win }
      = applyShadowConfig config (baseRenderer config win) := by
  by_cases hs : config.enableShadows.getD true <;>
    simp [applyShadowConfig, baseRenderer, hs]

/-- C1: while the lost flag is set every tick is a no-op apart from
rescheduling (no update, no draw, state and scene untouched); and after a
restoration signal the renderer configuration (viewport size, pixel
ratio, shadow settings) equals the pre-loss configuration exactly, the
flag is cleared, and a subsequent healthy advancing tick issues a draw
call. -/
theorem context_loss_restore (config : EngineConfig) (win : WindowEnv)
    (mid : List Op) (hmid : ∀ op ∈ mid, isTickOp op) (t : ℚ) (env : TickEnv) :
    (∀ s : EngineState, s.isContextLost = true →
      Engine.animate s env t = ({ s with animationId := some env.nextAnimationId }, [])) ∧
    (Engine.runTrace (Engine.onContextLost (Engine.new config win)) mid).2 = [] ∧
    (Engine.onContextRestored
        (Engine.runTrace (Engine.onContextLost (Engine.new config win)) mid).1 win).renderer
      = (Engine.new config win).renderer ∧
    (Engine.onContextRestored
        (Engine.runTrace (Engine.onContextLost (Engine.new config win)) mid).1 win).isContextLost
      = false ∧
    (env.glPresent = true → env.glLost = false → env.renderThrows = false →
      (Engine.onContextRestored
          (Engine.runTrace (Engine.onContextLost (Engine.new config win)) mid).1 win).frameInterval
        ≤ t - (Engine.onContextRestored
            (Engine.runTrace (Engine.onContextLost (Engine.new config win)) mid).1 win).lastFrameTime →
      Event.render ∈ (Engine.animate
        (Engine.onContextRestored
          (Engine.runTrace (Engine.onContextLost (Engine.new config win)) mid).1 win) env t).2) := by
  obtain ⟨hq, hfrozen⟩ :=
    lost_trace_frozen mid (Engine.onContextLost (Engine.new config win)) rfl hmid
  refine ⟨fun s hlost => animate_lost s env t hlost, hq, ?_, ?_, ?_⟩
  · rw [hfrozen]
    show applyShadowConfig config
      { applyShadowConfig config (baseRenderer config win) with
          width := win.innerWidth, height := win.innerHeight,
          pixelRatio := computePixelRatio config win }
      = applyShadowConfig config (baseRenderer config win)
    exact applyShadow_restore config win
  · rw [hfrozen]
    rfl
  · intro hgl hnl hrt hadv
    rw [hfrozen] at hadv ⊢
    rw [animate_advance _ env t rfl hgl hnl hadv]
    simp [advanceResult, hrt]

/-- Witness for context_loss_restore with one tick while lost and a
healthy tick environment for the restored phase. -/
theorem context_loss_restore_witness :
    (∀ op ∈ [Op.tick 50 env0], isTickOp op) ∧
    ((∀ s : EngineState, s.isContextLost = true →
      Engine.animate s env0 100 = ({ s with animationId := some env0.nextAnimationId }, [])) ∧
    (Engine.runTrace (Engine.onContextLost (Engine.new cfg0 win0)) [Op.tick 50 env0]).2 = [] ∧
    (Engine.onContextRestored
        (Engine.runTrace (Engine.onContextLost (Engine.new cfg0 win0)) [Op.tick 50 env0]).1
        win0).renderer
      = (Engine.new cfg0 win0).renderer ∧
    (Engine.onContextRestored
        (Engine.runTrace (Engine.onContextLost (Engine.new cfg0 win0)) [Op.tick 50 env0]).1
        win0).isContextLost = false ∧
    (env0.glPresent = true → env0.glLost = false → env0.renderThrows = false →
      (Engine.onContextRestored
          (Engine.runTrace (Engine.onContextLost (Engine.new cfg0 win0)) [Op.tick 50 env0]).1
          win0).frameInterval
        ≤ 100 - (Engine.onContextRestored
            (Engine.runTrace (Engine.onContextLost (Engine.new cfg0 win0)) [Op.tick 50 env0]).1
            win0).lastFrameTime →
      Event.render ∈ (Engine.animate
        (Engine.onContextRestored
          (Engine.runTrace (Engine.onContextLost (Engine.new cfg0 win0)) [Op.tick 50 env0]).1
          win0) env0 100).2)) := by
  have hmid : ∀ op ∈ [Op.tick 50 env0], isTickOp op := by
    intro op h
    simp only [List.mem_singleton] at h
    subst h
    trivial
  exact ⟨hmid, context_loss_restore cfg0 win0 [Op.tick 50 env0] hmid 100 env0⟩

/-- C7: a draw call that throws while the context is alive is swallowed:
the game update was dispatched in the same tick before the draw attempt,
the resulting state is exactly the state a successful draw would have
produced, the lost flag stays clear, the next callback is scheduled, the
active game is untouched, and a subsequent healthy advancing tick draws
normally. -/
theorem render_error_swallowed (s : EngineState) (t : ℚ) (env : TickEnv) (g : ℕ)
    (hlost : s.isContextLost = false) (hgl : env.glPresent = true) (hnl : env.glLost = false)
    (hthrow : env.renderThrows = true) (hcatch : env.glLostInCatch = false)
    (hre : env.recheckGlPresent = true) (hrel : env.recheckGlLost = false)
    (hadv : s.frameInterval ≤ t - s.lastFrameTime) (hg : s.game = some g) :
    (Engine.animate s env t).1
      = (Engine.animate s { env with renderThrows := false } t).1 ∧
    (Engine.animate s env t).1.isContextLost = false ∧
    (Engine.animate s env t).1.animationId = some env.nextAnimationId ∧
    (Engine.animate s env t).1.game = some g ∧
    Event.update g (advanceDelta s t) ∈ (Engine.animate s env t).2 ∧
    Event.renderFailed ∈ (Engine.animate s env t).2 ∧
    Event.render ∉ (Engine.animate s env t).2 ∧
    (∀ (t2 : ℚ) (env2 : TickEnv), env2.glPresent = true → env2.glLost = false →
      env2.renderThrows = false →
      (Engine.animate s env t).1.frameInterval
        ≤ t2 - (Engine.animate s env t).1.lastFrameTime →
      Event.render ∈ (Engine.animate (Engine.animate s env t).1 env2 t2).2) := by
  have hgl2 : ({ env with renderThrows := false } : TickEnv).glPresent = true := hgl
  have hnl2 : ({ env with renderThrows := false } : TickEnv).glLost = false := hnl
  rw [animate_advance s env t hlost hgl hnl hadv,
    animate_advance s { env with renderThrows := false } t hlost hgl2 hnl2 hadv]
  refine ⟨?_, ?_, rfl, ?_, ?_, ?_, ?_, ?_⟩
  · simp [advanceResult, hthrow, hcatch, hre, hrel]
  · simp [advanceResult, hthrow, hcatch, hre, hrel]
  · show (advanceResult s env t).1.game = some g
    rw [show (advanceResult s env t).1.game = s.game from rfl, hg]
  · simp [advanceResult, hg]
  · simp [advanceResult, hg, hthrow]
  · simp [advanceResult, hg, hthrow]
  · intro t2 env2 h1 h2 h3 h4
    have hlost3 : (advanceResult s env t).1.isContextLost = false := by
      simp [advanceResult, hthrow, hcatch, hre, hrel]
    rw [animate_advance (advanceResult s env t).1 env2 t2 hlost3 h1 h2 h4]
    have hg3 : (advanceResult s env t).1.game = some g := by
      rw [show (advanceResult s env t).1.game = s.game from rfl, hg]
    simp [advanceResult, hg3, h3]

/-- Witness for render_error_swallowed at the sample running state with a
throwing draw call at timestamp 100. -/
theorem render_error_swallowed_witness :
    s1.frameInterval ≤ 100 - s1.lastFrameTime ∧
    ((Engine.animate s1 envThrow 100).1
      = (Engine.animate s1 { envThrow with renderThrows := false } 100).1 ∧
    (Engine.animate s1 envThrow 100).1.isContextLost = false ∧
    (Engine.animate s1 envThrow 100).1.animationId = some envThrow.nextAnimationId ∧
    (Engine.animate s1 envThrow 100).1.game = some 1 ∧
    Event.update 1 (advanceDelta s1 100) ∈ (Engine.animate s1 envThrow 100).2 ∧
    Event.renderFailed ∈ (Engine.animate s1 envThrow 100).2 ∧
    Event.render ∉ (Engine.animate s1 envThrow 100).2 ∧
    (∀ (t2 : ℚ) (env2 : TickEnv), env2.glPresent = true → env2.glLost = false →
      env2.renderThrows = false →
      (Engine.animate s1 envThrow 100).1.frameInterval
        ≤ t2 - (Engine.animate s1 envThrow 100).1.lastFrameTime →
      Event.render ∈ (Engine.animate (Engine.animate s1 envThrow 100).1 env2 t2).2)) := by
  have hadv : s1.frameInterval ≤ 100 - s1.lastFrameTime := by
    norm_num [s1, Engine.new, cfg0]
  exact ⟨hadv,
    render_error_swallowed s1 100 envThrow 1 rfl rfl rfl rfl rfl rfl rfl hadv rfl⟩
